import Mathlib

/-!
Shallow embedding of the core of `preschool-allocation-forecast`
(`src/forecast_model.py`): the demand reconciler `get_overview`
(lines 66-128) and the demand forecaster `get_forecast_demand`
(lines 130-191), together with the in-place effects of
`get_forecast_demand` (line 149) and `get_forecast_plot` (line 209).

Tabular values are modelled as `Option Int` / `Option Rat`
(`none` plays the role of pandas `NaN`); year labels are `Int`.
-/

/-! ## Demand reconciler: `get_overview` (forecast_model.py lines 66-128)

After the pivots, `forecasted_df_wide` is a one-row table (columns = the
historical+forecast years, values = integer counts) and
`curr_year_demand_wide` is a one-row table (columns = the BTO completion
years, values = unit counts).  Line 90 outer-merges the two on their common
year columns; the merged table's columns are the left (forecast) columns in
their original ascending order followed by the right-only (BTO-only)
columns.  The code addresses the merged rows positionally: row 0 is treated
as the "Upcoming Demand" (BTO) row and row 1 as the "Current Demand"
(history+forecast) row, as fixed by the labels attached at lines 116-118
and the comment at line 92; we model the merged table accordingly as
`merged_columns`, `upcoming_row` (row 0) and `current_row` (row 1).
A `none` cell is a `NaN` produced by the outer join for a column that the
row's source table does not cover. -/

/-- Columns of the merged overview table (line 90): the forecast-pivot
columns in order, then the BTO-only columns in order. -/
def merged_columns (left right : List Int) : List Int :=
  left ++ right.filter (fun y => !left.contains y)

/-- Row 0 of the merged table, the "Upcoming Demand" (BTO units) row:
defined exactly on the BTO completion years. -/
def upcoming_row (left right : List Int) (units : Int → Int) : List (Option Int) :=
  (merged_columns left right).map (fun y => if y ∈ right then some (units y) else none)

/-- Row 1 of the merged table, the "Current Demand" (history+forecast
counts) row: defined exactly on the forecast-pivot years. -/
def current_row (left right : List Int) (counts : Int → Int) : List (Option Int) :=
  (merged_columns left right).map (fun y => if y ∈ left then some (counts y) else none)

/-- First position of year `y` in a column list (label lookup
`merged_df[y]`). -/
def idx_of (y : Int) : List Int → Option Nat
  | [] => none
  | c :: t => if c = y then some 0 else (idx_of y t).map (· + 1)

/-- `merged_df[two_years_before].iloc[0]` guarded by
`two_years_before in merged_df.columns` (lines 97-101): the row-0 value at
column `col - 2`, `none` when the column is absent or the cell is `NaN`. -/
def two_years_before_demand (cols : List Int) (row0 : List (Option Int)) (col : Int) :
    Option Int :=
  match idx_of (col - 2) cols with
  | none => none
  | some p => (row0[p]?).getD none

/-- The positional spread window of line 104:
`list(range(idx, idx + 6))` when `idx + 5 < len(columns)`, else
`list(range(idx, len(columns)))`. -/
def next_five_years (idx n : Nat) : List Nat :=
  if idx + 5 < n then (List.range 6).map (idx + ·) else (List.range (n - idx)).map (idx + ·)

/-- Add `c` to a `NaN`-able cell (`int(total_demand_list[year_idx]) + inc`,
line 111).  A `none` cell stays `none`; in Python that cell would raise
`ValueError` either at line 111 or at the `astype(int)` of line 113, so
runs of `get_overview` that return are exactly those whose current-demand
row is numeric wherever it is kept. -/
def bump (c : Int) : Option Int → Option Int
  | some v => some (v + c)
  | none => none

/-- Apply `bump c` to position `j` of the row. -/
def upd_at : List (Option Int) → Nat → Int → List (Option Int)
  | [], _, _ => []
  | v :: t, 0, c => bump c v :: t
  | v :: t, j + 1, c => v :: upd_at t j c

/-- One iteration of the loop of lines 93-111 for the column `p.2` at
position `p.1`: if the upcoming demand two years before is defined, add its
truncated fifth (`int(two_years_before_demand / 5)`, Python `int` truncates
toward zero, hence `Int.tdiv`) to every position of the spread window. -/
def overview_step (cols : List Int) (row0 : List (Option Int))
    (acc : List (Option Int)) (p : Nat × Int) : List (Option Int) :=
  match two_years_before_demand cols row0 p.2 with
  | none => acc
  | some v =>
      (next_five_years p.1 cols.length).foldl (fun a j => upd_at a j (Int.tdiv v 5)) acc

/-- Python `enumerate`, pairing each element with its position. -/
def py_enumerate (i : Nat) : List α → List (Nat × α)
  | [] => []
  | x :: t => (i, x) :: py_enumerate (i + 1) t

/-- `total_demand_list` after the loop of lines 92-111: starts as row 1 of
the merged table (`merged_df.iloc[1].tolist()`) and is updated in place by
each triggered column. -/
def total_demand_list (cols : List Int) (row0 row1 : List (Option Int)) :
    List (Option Int) :=
  (py_enumerate 0 cols).foldl (overview_step cols row0) row1

/-- The labelled overview of lines 113-121 (non-empty BTO branch): the
three rows are labelled "Upcoming Demand", "Current Demand", "Total Demand"
in merged order and then reordered by `reindex([1, 0, 2])`. -/
def get_overview_rows (cols : List Int) (row0 row1 : List (Option Int)) :
    List (String × List (Option Int)) :=
  let rows := [("Upcoming Demand", row0), ("Current Demand", row1),
    ("Total Demand", total_demand_list cols row0 row1)]
  [1, 0, 2].filterMap (fun i => rows[i]?)

/-- Total increment received by position `j`: the sum, over all columns,
of the triggered per-year increment when `j` lies in that column's
positional spread window. -/
def pos_sum (cols : List Int) (row0 : List (Option Int)) (j : Nat) : Int :=
  ((py_enumerate 0 cols).map (fun p =>
    match two_years_before_demand cols row0 p.2 with
    | none => 0
    | some v => if j ∈ next_five_years p.1 cols.length then Int.tdiv v 5 else 0)).sum

/-- The consecutive ascending column list `[a, a+1, ..., a+n-1]`. -/
def range_years (a : Int) (n : Nat) : List Int :=
  (List.range n).map (fun k : Nat => a + (k : Int))

/-- Modelled from the spec (section 4.4 item 3): the calendar reading of the
redistribution rule.  For every year `Y` of the column set whose upcoming
demand at `Y - 2` is defined, the truncated fifth of that value is added to
the total demand of every year of the window `[Y, Y + 5]` that exists in
the column set.  Used only to compare the spec's words with
`total_demand_list`. -/
def spec_sum (cols : List Int) (row0 : List (Option Int)) (y : Int) : Int :=
  (cols.map (fun Y =>
    match two_years_before_demand cols row0 Y with
    | none => 0
    | some v => if Y ≤ y ∧ y ≤ Y + 5 then Int.tdiv v 5 else 0)).sum

/-- Modelled from the spec (section 4.4 items 3-4): the total-demand row as
the spec describes it, the current row bumped year-wise by the calendar
increments. -/
def spec_total_demand (cols : List Int) (row0 row1 : List (Option Int)) :
    List (Option Int) :=
  List.zipWith (fun Y v => bump (spec_sum cols row0 Y) v) cols row1

/-- Difference of two cells when both in range and numeric, 0 otherwise. -/
def diff_cell : Option (Option Int) → Option (Option Int) → Int
  | some (some f), some (some i) => f - i
  | _, _ => 0

/-- Net increment that the redistribution loop adds to the total-demand
value at year `y`: final minus initial value at the column of `y` (0 when
the column or either value is undefined). -/
def added_at (cols : List Int) (row0 row1 : List (Option Int)) (y : Int) : Int :=
  ((idx_of y cols).map (fun j =>
    diff_cell ((total_demand_list cols row0 row1)[j]?) (row1[j]?))).getD 0

/-! ### Concrete merged tables used to check the redistribution claims

`c1_left` is a forecast pivot whose year set has gaps; `c1_right` is a BTO
pivot whose single completion year 1998 is shared with the left table, so
the merged columns are exactly `c1_left` and every current-demand cell is
numeric (the Python run returns normally). -/

def c1_left : List Int := [1998, 2000, 2001, 2004, 2005, 2006, 2007]

def c1_right : List Int := [1998]

def c1_cols : List Int := merged_columns c1_left c1_right

def c1_row0 : List (Option Int) := upcoming_row c1_left c1_right (fun _ => 50)

def c1_row1 : List (Option Int) := current_row c1_left c1_right (fun _ => 0)

/-- Single-cohort scenario of the conservation claim: columns 2018-2032,
one BTO cohort of 500 units completing in 2025, flat current demand. -/
def c4_cols : List Int := range_years 2018 15

def c4_row0 : List (Option Int) := c4_cols.map (fun c => if c = 2025 then some 500 else none)

def c4_row1 : List (Option Int) := c4_cols.map (fun _ => some 0)

/-! ## Demand forecaster: `get_forecast_demand` (forecast_model.py lines 130-191)

The year-indexed joined table of lines 150-156 is modelled as a list of
rows sorted by year (a pandas outer merge sorts its join keys), with
`Rate` looked up in the fertility series restricted to years >= 2000
(line 147) and `Rate_lagged` the positional 2-row shift of `Rate` over the
joined index (line 155).  `dropna(subset=['Rate', 'Rate_lagged'])`
(line 156) keeps the rows where both are defined. -/

/-- First value paired with year `y` in a (year, value) series. -/
def lookup_year (y : Int) : List (Int × α) → Option α
  | [] => none
  | p :: t => if p.1 = y then some p.2 else lookup_year y t

/-- `fertility_rate_long[fertility_rate_long['Year'] >= 2000]` (line 147). -/
def filtered_fertility (fert : List (Int × Rat)) : List (Int × Rat) :=
  fert.filter (fun p => decide (2000 ≤ p.1))

/-- The `Rate` column: the filtered fertility rate at year `y`. -/
def rate_at (fert : List (Int × Rat)) (y : Int) : Option Rat :=
  lookup_year y (filtered_fertility fert)

/-- The `Count` column: the historical count at year `y`. -/
def count_at (hist : List (Int × Int)) (y : Int) : Option Int :=
  lookup_year y hist

/-- Insert a year into an ascending list, keeping it ascending. -/
def insert_sorted (y : Int) : List Int → List Int
  | [] => [y]
  | c :: t => if y ≤ c then y :: c :: t else c :: insert_sorted y t

/-- Sort a year list ascending (insertion sort). -/
def sort_years (l : List Int) : List Int := l.foldr insert_sorted []

/-- Index of the outer merge of line 150: the union of the historical years
and the filtered fertility years, sorted ascending (pandas sorts the keys
of an outer join). -/
def joined_years (histYs fertYs : List Int) : List Int :=
  sort_years (histYs ++ fertYs.filter (fun y => !histYs.contains y))

/-- One row of the joined, year-indexed table of lines 150-155. -/
structure ExogRow where
  year : Int
  count : Option Int
  rate : Option Rat
  rate_lagged : Option Rat
deriving DecidableEq, Repr

/-- The rows of the joined, year-indexed table over the index `ys`: for
the row at position `i`, `Rate_lagged` is the `Rate` value of the row two
positions earlier (`shift(2)` of line 155 is positional), `none` on the
first two rows. -/
def exog_rows_of (ys : List Int) (hist : List (Int × Int)) (fert : List (Int × Rat)) :
    List ExogRow :=
  (py_enumerate 0 ys).map (fun p =>
    { year := p.2, count := count_at hist p.2, rate := rate_at fert p.2,
      rate_lagged := if 2 ≤ p.1 then (ys[p.1 - 2]?).bind (rate_at fert) else none })

/-- The joined table after line 155, indexed by the outer-join year
index. -/
def data_long_with_rates (hist : List (Int × Int)) (fert : List (Int × Rat)) :
    List ExogRow :=
  exog_rows_of (joined_years (hist.map (·.1)) ((filtered_fertility fert).map (·.1)))
    hist fert

/-- The ExogenousFrame: rows surviving
`dropna(subset=['Rate', 'Rate_lagged'])` (line 156). -/
def exog_frame (hist : List (Int × Int)) (fert : List (Int × Rat)) : List ExogRow :=
  (data_long_with_rates hist fert).filter (fun r => r.rate.isSome && r.rate_lagged.isSome)

/-- Error kinds for the fitting pipeline.  `dataInsufficient` is the
`DataInsufficientError` that section 7 of the spec prescribes; no such
class exists in the repository, so the model never produces it.
`valueError` is Python's built-in `ValueError`. -/
inductive CoreError where
  | dataInsufficient
  | valueError
deriving DecidableEq, Repr

/-- The pipeline of lines 159-175 up to the start of the ARIMA fit:
`LinearRegression().fit` on an empty frame raises `ValueError` (line 164),
and `Count.astype(int)` on a row whose count is `NaN` raises `ValueError`
(line 170, applied to the first 19 rows sliced at line 168).  The
statistical behaviour of the fit itself is not modelled. -/
def fit_pipeline (hist : List (Int × Int)) (fert : List (Int × Rat)) :
    Except CoreError Unit :=
  let frame := exog_frame hist fert
  if frame.isEmpty then .error .valueError
  else if (frame.take 19).any (fun r => r.count.isNone) then .error .valueError
  else .ok ()

/-- Maximum of a year list, 0 on the empty list. -/
def int_list_max : List Int → Int
  | [] => 0
  | x :: t => max x (int_list_max t)

/-- `data_long['Year'].max()`. -/
def data_long_year_max (hist : List (Int × Int)) : Int :=
  int_list_max (hist.map (·.1))

/-- `forecast_periods = 9` (line 178). -/
def forecast_periods : Nat := 9

/-- `future_years = np.arange(data_long['Year'].max() + 1,
data_long['Year'].max() + 10)` (line 189): the 9 consecutive years after
the last historical year. -/
def future_years (maxYear : Int) : List Int :=
  range_years (maxYear + 1) forecast_periods

/-- The ForecastResult: the forecast values (one per step of
`model_fit.forecast(steps=forecast_periods, ...)`, line 188) paired with
`future_years`. -/
def forecast_result (vals : List Rat) (hist : List (Int × Int)) : List (Int × Rat) :=
  (future_years (data_long_year_max hist)).zip vals

/-! ## Exogenous extrapolator (forecast_model.py lines 159-165 and 180-184) -/

/-- `years_forecast = np.array([2024, 2025, 2026, 2027, 2028, 2029])`
(line 161): the hard-coded years at which the linear model is evaluated. -/
def years_forecast : List Int := [2024, 2025, 2026, 2027, 2028, 2029]

/-- Coefficients of the fitted `LinearRegression` of lines 163-164 (one
slope and intercept per target column); the least-squares fit itself is
not constrained by any claim. -/
structure LinFit where
  mRate : Rat
  bRate : Rat
  mLag : Rat
  bLag : Rat

/-- `reg.predict` at a single year: the two linear targets. -/
def reg_predict (f : LinFit) (y : Int) : Rat × Rat :=
  (f.bRate + f.mRate * (y : Rat), f.bLag + f.mLag * (y : Rat))

/-- `data_long_with_rates.index.max()` after the in-place `dropna` of
line 156: the last year present in the ExogenousFrame. -/
def exog_frame_year_max (hist : List (Int × Int)) (fert : List (Int × Rat)) : Int :=
  int_list_max ((exog_frame hist fert).map (·.year))

/-- `years_last_6 = np.arange(index.max() + 1, index.max() + 7)`
(line 180). -/
def years_last_6 (maxYear : Int) : List Int := range_years (maxYear + 1) 6

/-- `exog_last_6_df` (lines 181-184): the predicted rows, computed at the
hard-coded `years_forecast` and indexed by `years_last_6`. -/
def exog_last_6_df (f : LinFit) (maxYear : Int) : List (Int × (Rat × Rat)) :=
  (years_last_6 maxYear).zip (years_forecast.map (reg_predict f))

/-! ## In-place effects on input frames (lines 149 and 209)

A DataFrame is modelled as an association list from column name to cell
list; `set_col` is pandas column assignment `df[c] = vals` (overwrite in
place, or append a new column). -/

/-- A cell of a DataFrame column. -/
inductive Cell where
  | int (n : Int)
  | flt (q : Rat)
  | str (s : String)
deriving DecidableEq, Repr

/-- Python `int()` truncation toward zero of a float. -/
def py_trunc (q : Rat) : Int := if 0 ≤ q then q.floor else -((-q).floor)

/-- `astype(int)` on a single numeric cell.  (String parsing of `astype`
is not modelled; no input considered here has string year cells.) -/
def astype_int_cell : Cell → Cell
  | .int n => .int n
  | .flt q => .int (py_trunc q)
  | .str s => .str s

/-- Column `c` of the frame, `[]` when absent. -/
def get_col (df : List (String × List Cell)) (c : String) : List Cell :=
  match df.find? (fun p => p.1 == c) with
  | none => []
  | some p => p.2

/-- `df[c] = vals`: overwrite column `c` in place, appending it when it
does not exist yet. -/
def set_col (df : List (String × List Cell)) (c : String) (vals : List Cell) :
    List (String × List Cell) :=
  if df.any (fun p => p.1 == c) then
    df.map (fun p => if p.1 == c then (c, vals) else p)
  else df ++ [(c, vals)]

/-- Number of rows of the frame (length of its first column). -/
def n_rows (df : List (String × List Cell)) : Nat :=
  match df with
  | [] => 0
  | p :: _ => p.2.length

/-- The write `data_long['Year'] = data_long['Year'].astype(int)` that
`get_forecast_demand` performs on its input frame (line 149). -/
def get_forecast_demand_effect (df : List (String × List Cell)) :
    List (String × List Cell) :=
  set_col df "Year" ((get_col df "Year").map astype_int_cell)

/-- The write `data_long['Type'] = 'Actual'` that `get_forecast_plot`
performs on its input frame (line 209). -/
def get_forecast_plot_effect (df : List (String × List Cell)) :
    List (String × List Cell) :=
  set_col df "Type" (List.replicate (n_rows df) (Cell.str "Actual"))

/-- A caller's frame before `get_forecast_demand` / `get_forecast_plot`:
`Year` held as floats, no `Type` column. -/
def c9_df : List (String × List Cell) :=
  [("Subzone", [Cell.str "A"]), ("Year", [Cell.flt 2000]), ("Count", [Cell.int 10])]

/-! ### Concrete series used to check the forecaster claims -/

/-- Historical series with a gapped year set (years 2002 and 2004
missing). -/
def c6_hist : List (Int × Int) := [(2000, 10), (2001, 11), (2003, 13), (2005, 15)]

/-- Fertility series over the same gapped year set, with pairwise distinct
rates. -/
def c6_fert : List (Int × Rat) := [(2000, 1), (2001, 2), (2003, 3), (2005, 4)]

/-- Contiguous historical series 2000-2003. -/
def c6w_hist : List (Int × Int) := [(2000, 5), (2001, 6), (2002, 7), (2003, 8)]

/-- Contiguous fertility series 2000-2003. -/
def c6w_fert : List (Int × Rat) := [(2000, 1), (2001, 2), (2002, 3), (2003, 4)]

/-- Historical series with no year in common with `c7_fert`. -/
def c7_hist : List (Int × Int) := [(2000, 5), (2001, 6)]

/-- Fertility series 2010-2012, disjoint from `c7_hist`. -/
def c7_fert : List (Int × Rat) := [(2010, 1), (2011, 2), (2012, 3)]

/-- A 21-year historical series 2000-2020 with constant count. -/
def c5_hist : List (Int × Int) :=
  (List.range 21).map (fun k => ((2000 + (k : Int)), 100))

/-- Nine forecast values. -/
def c5_vals : List Rat := List.replicate 9 0

/-! ### Lemmas: the loop of lines 92-111 in closed form -/

theorem bump_zero (v : Option Int) : bump 0 v = v := by
  cases v <;> simp [bump]

theorem bump_bump (c₁ c₂ : Int) (v : Option Int) :
    bump c₂ (bump c₁ v) = bump (c₁ + c₂) v := by
  cases v <;> simp [bump, Int.add_assoc]

theorem upd_at_length (l : List (Option Int)) (j : Nat) (c : Int) :
    (upd_at l j c).length = l.length := by
  induction l generalizing j with
  | nil => rfl
  | cons v t ih =>
      cases j with
      | zero => rfl
      | succ j => simp [upd_at, ih]

theorem getElem?_upd_at (l : List (Option Int)) (j : Nat) (c : Int) (i : Nat) :
    (upd_at l j c)[i]? = if i = j then (l[i]?).map (bump c) else l[i]? := by
  induction l generalizing j i with
  | nil => simp [upd_at]
  | cons v t ih =>
      cases j with
      | zero =>
          cases i with
          | zero => simp [upd_at]
          | succ i => simp [upd_at]
      | succ j =>
          cases i with
          | zero => simp [upd_at]
          | succ i => simpa [upd_at] using ih j i

theorem window_fold_length (js : List Nat) (l : List (Option Int)) (c : Int) :
    (js.foldl (fun a j => upd_at a j c) l).length = l.length := by
  induction js generalizing l with
  | nil => rfl
  | cons j js ih => simp [List.foldl_cons, ih, upd_at_length]

theorem getElem?_window_fold (js : List Nat) (l : List (Option Int)) (c : Int)
    (j : Nat) (hnd : js.Nodup) :
    (js.foldl (fun a i => upd_at a i c) l)[j]? =
      if j ∈ js then (l[j]?).map (bump c) else l[j]? := by
  induction js generalizing l with
  | nil => simp
  | cons i js ih =>
      have hnd' : js.Nodup := hnd.of_cons
      have hni : i ∉ js := by
        simp [List.nodup_cons] at hnd
        exact hnd.1
      rw [List.foldl_cons, ih _ hnd']
      by_cases hj : j = i
      · subst hj
        simp [hni, getElem?_upd_at]
      · by_cases hjs : j ∈ js <;> simp [hjs, hj, getElem?_upd_at]

theorem next_five_years_nodup (idx n : Nat) : (next_five_years idx n).Nodup := by
  unfold next_five_years
  split <;>
    exact (List.nodup_range _).map (fun a b h => by omega)

theorem mem_next_five_years (idx n j : Nat) :
    j ∈ next_five_years idx n ↔
      (idx ≤ j ∧ ((idx + 5 < n ∧ j ≤ idx + 5) ∨ (n ≤ idx + 5 ∧ j < n))) := by
  unfold next_five_years
  split <;> rename_i h <;> simp [List.mem_map, List.mem_range] <;>
    constructor <;> (intro hc)
  · obtain ⟨k, hk, rfl⟩ := hc
    omega
  · exact ⟨j - idx, by omega, by omega⟩
  · obtain ⟨k, hk, rfl⟩ := hc
    omega
  · exact ⟨j - idx, by omega, by omega⟩

/-- The contribution of one loop iteration `p = (idx, col)` to position
`j` of the total-demand list. -/
def step_contrib (cols : List Int) (row0 : List (Option Int)) (j : Nat)
    (p : Nat × Int) : Int :=
  match two_years_before_demand cols row0 p.2 with
  | none => 0
  | some v => if j ∈ next_five_years p.1 cols.length then Int.tdiv v 5 else 0

theorem overview_step_length (cols : List Int) (row0 : List (Option Int))
    (acc : List (Option Int)) (p : Nat × Int) :
    (overview_step cols row0 acc p).length = acc.length := by
  unfold overview_step
  split
  · rfl
  · exact window_fold_length _ _ _

theorem getElem?_overview_step (cols : List Int) (row0 : List (Option Int))
    (acc : List (Option Int)) (p : Nat × Int) (j : Nat) :
    (overview_step cols row0 acc p)[j]? =
      (acc[j]?).map (bump (step_contrib cols row0 j p)) := by
  unfold overview_step step_contrib
  split
  · cases h : acc[j]? with
    | none => simp
    | some v => simp [bump_zero]
  · rw [getElem?_window_fold _ _ _ _ (next_five_years_nodup _ _)]
    by_cases hmem : j ∈ next_five_years p.1 cols.length
    · simp [hmem]
    · cases h : acc[j]? with
      | none => simp [hmem]
      | some v => simp [hmem, bump_zero]

theorem getElem?_fold_overview_step (cols : List Int) (row0 : List (Option Int))
    (ps : List (Nat × Int)) (l : List (Option Int)) (j : Nat) :
    (ps.foldl (overview_step cols row0) l)[j]? =
      (l[j]?).map (bump ((ps.map (step_contrib cols row0 j)).sum)) := by
  induction ps generalizing l with
  | nil =>
      cases h : l[j]? with
      | none => simp [h]
      | some v => simp [h, bump_zero]
  | cons p ps ih =>
      rw [List.foldl_cons, ih, getElem?_overview_step]
      cases h : l[j]? with
      | none => simp [h]
      | some v => simp [h, bump_bump]

theorem total_demand_list_getElem? (cols : List Int) (row0 row1 : List (Option Int))
    (j : Nat) :
    (total_demand_list cols row0 row1)[j]? =
      (row1[j]?).map (bump (pos_sum cols row0 j)) := by
  unfold total_demand_list pos_sum
  rw [getElem?_fold_overview_step]
  rfl

theorem total_demand_list_length (cols : List Int) (row0 row1 : List (Option Int)) :
    (total_demand_list cols row0 row1).length = row1.length := by
  unfold total_demand_list
  generalize py_enumerate 0 cols = ps
  induction ps generalizing row1 with
  | nil => rfl
  | cons p ps ih => simp [List.foldl_cons, ih, overview_step_length]

/-! ### Lemmas: consecutive ascending columns -/

theorem range_years_succ (a : Int) (n : Nat) :
    range_years a (n + 1) = a :: range_years (a + 1) n := by
  unfold range_years
  rw [List.range_succ_eq_map, List.map_cons, List.map_map]
  simp only [Nat.cast_zero, Int.add_zero]
  congr 1
  apply List.map_congr_left
  intro k hk
  simp only [Function.comp_apply]
  push_cast
  ring

theorem range_years_length (a : Int) (n : Nat) : (range_years a n).length = n := by
  simp [range_years]

theorem getElem?_range_years (a : Int) (n k : Nat) :
    (range_years a n)[k]? = if k < n then some (a + (k : Int)) else none := by
  unfold range_years
  rw [List.getElem?_map]
  by_cases hk : k < n
  · rw [if_pos hk, List.getElem?_range hk]
    rfl
  · rw [if_neg hk, List.getElem?_eq_none (by simpa using Nat.le_of_not_lt hk)]
    rfl

theorem mem_range_years (a y : Int) (n : Nat) :
    y ∈ range_years a n ↔ a ≤ y ∧ y < a + n := by
  unfold range_years
  simp only [List.mem_map, List.mem_range]
  constructor
  · rintro ⟨k, hk, rfl⟩
    omega
  · intro hy
    exact ⟨(y - a).toNat, by omega, by omega⟩

theorem idx_of_range_years (a y : Int) (n : Nat) :
    idx_of y (range_years a n) =
      if a ≤ y ∧ y < a + n then some (y - a).toNat else none := by
  induction n generalizing a with
  | zero =>
      simp only [range_years, List.range_zero, List.map_nil, idx_of]
      rw [if_neg (by push_cast; omega)]
  | succ n ih =>
      rw [range_years_succ]
      unfold idx_of
      by_cases hya : a = y
      · rw [if_pos hya, if_pos (by push_cast; omega)]
        congr 1
        omega
      · rw [if_neg hya, ih]
        by_cases hy : a + 1 ≤ y ∧ y < a + 1 + (n : Int)
        · rw [if_pos hy, if_pos (by push_cast; omega)]
          simp only [Option.map_some']
          congr 1
          omega
        · rw [if_neg hy, if_neg (by push_cast; omega)]
          rfl

theorem step_value_congr (c : Option Int) (w₁ w₂ : Prop) [Decidable w₁] [Decidable w₂]
    (hw : w₁ ↔ w₂) :
    (match c with
      | none => (0 : Int)
      | some v => if w₁ then Int.tdiv v 5 else 0) =
    (match c with
      | none => (0 : Int)
      | some v => if w₂ then Int.tdiv v 5 else 0) := by
  cases c with
  | none => rfl
  | some v => simp only [hw]

theorem py_enumerate_range_years (i : Nat) (a : Int) (n : Nat) :
    py_enumerate i (range_years a n) =
      (List.range n).map (fun k => (i + k, a + (k : Int))) := by
  induction n generalizing i a with
  | zero => simp [range_years, py_enumerate]
  | succ n ih =>
      rw [range_years_succ, List.range_succ_eq_map, List.map_cons]
      unfold py_enumerate
      rw [ih, List.map_map]
      congr 1
      · congr 1
        omega
      · apply List.map_congr_left
        intro k hk
        simp only [Function.comp_apply, Prod.mk.injEq]
        constructor
        · omega
        · push_cast
          ring

/-- Over consecutive ascending columns, the positional loop of lines
92-111 computes exactly the calendar totals that section 4.4 of the spec
describes. -/
theorem total_demand_list_eq_spec_of_consecutive (a : Int) (n : Nat)
    (row0 row1 : List (Option Int)) (h1 : row1.length = n) :
    total_demand_list (range_years a n) row0 row1 =
      spec_total_demand (range_years a n) row0 row1 := by
  apply List.ext_getElem?
  intro j
  rw [total_demand_list_getElem?]
  unfold spec_total_demand
  rw [List.getElem?_zipWith]
  rw [getElem?_range_years]
  by_cases hj : j < n
  · rw [if_pos hj]
    cases hv : row1[j]? with
    | none =>
        exfalso
        rw [List.getElem?_eq_none_iff] at hv
        omega
    | some v =>
        simp only [Option.map_some']
        congr 2
        unfold pos_sum spec_sum
        rw [py_enumerate_range_years]
        unfold range_years
        rw [List.map_map, List.map_map]
        congr 1
        apply List.map_congr_left
        intro k hk
        rw [List.mem_range] at hk
        simp only [Function.comp_apply, Nat.zero_add]
        apply step_value_congr
        rw [mem_next_five_years]
        simp only [List.length_map, List.length_range]
        omega
  · rw [if_neg hj]
    have hr : row1[j]? = none := by
      rw [List.getElem?_eq_none_iff]
      omega
    simp [hr]


/-! ### Lemmas: membership in the enumeration, single-cohort sums -/

theorem mem_py_enumerate (i : Nat) (l : List α) (p : Nat × α) :
    p ∈ py_enumerate i l ↔
      ∃ k : Nat, k < l.length ∧ p.1 = i + k ∧ l[k]? = some p.2 := by
  obtain ⟨p1, p2⟩ := p
  induction l generalizing i with
  | nil => simp [py_enumerate]
  | cons x t ih =>
      unfold py_enumerate
      simp only [List.mem_cons, ih, Prod.mk.injEq]
      constructor
      · rintro (⟨rfl, rfl⟩ | ⟨k, hk, hp, hl⟩)
        · exact ⟨0, by simp, by omega, by simp⟩
        · exact ⟨k + 1, by simp; omega, by omega, by simpa using hl⟩
      · rintro ⟨k, hk, hp, hl⟩
        cases k with
        | zero =>
            left
            simp only [List.getElem?_cons_zero, Option.some.injEq] at hl
            exact ⟨by omega, hl.symm⟩
        | succ k =>
            right
            exact ⟨k, by simpa using hk, by omega, by simpa using hl⟩

theorem snd_mem_of_mem_py_enumerate (i : Nat) (l : List α) (p : Nat × α)
    (hp : p ∈ py_enumerate i l) : p.2 ∈ l := by
  rw [mem_py_enumerate] at hp
  obtain ⟨k, hk, _, hl⟩ := hp
  exact List.getElem?_mem hl

theorem sum_map_range_zero (g : Nat → Int) (n : Nat)
    (h0 : ∀ i, i < n → g i = 0) : ((List.range n).map g).sum = 0 := by
  apply List.sum_eq_zero
  intro x hx
  rw [List.mem_map] at hx
  obtain ⟨k, hk, rfl⟩ := hx
  exact h0 k (List.mem_range.mp hk)

theorem sum_map_range_single (g : Nat → Int) (n k : Nat) (hk : k < n)
    (h0 : ∀ i, i < n → i ≠ k → g i = 0) : ((List.range n).map g).sum = g k := by
  induction n with
  | zero => omega
  | succ n ih =>
      rw [List.range_succ, List.map_append, List.sum_append]
      by_cases hkn : k = n
      · subst hkn
        rw [sum_map_range_zero g k (fun i hi => h0 i (by omega) (by omega))]
        simp
      · rw [ih (by omega) (fun i hi hne => h0 i (by omega) hne)]
        have : g n = 0 := h0 n (by omega) (by omega)
        simp [this]

/-- With a single cohort of `U` units at year `Y0`, the upcoming-demand
lookback of lines 97-101 triggers exactly at the column `Y0 + 2`. -/
theorem twobd_single (a Y0 U : Int) (n : Nat) (hY : a ≤ Y0 ∧ Y0 < a + n) (c : Int) :
    two_years_before_demand (range_years a n)
      ((range_years a n).map (fun x => if x = Y0 then some U else none)) c =
      if c - 2 = Y0 then some U else none := by
  unfold two_years_before_demand
  rw [idx_of_range_years]
  by_cases hin : a ≤ c - 2 ∧ c - 2 < a + n
  · rw [if_pos hin]
    simp only []
    rw [List.getElem?_map, getElem?_range_years, if_pos (by omega : (c - 2 - a).toNat < n)]
    have hcast : a + ((c - 2 - a).toNat : Int) = c - 2 := by omega
    rw [hcast]
    simp only [Option.map_some', Option.getD_some]
  · rw [if_neg hin, if_neg (by omega : ¬(c - 2 = Y0))]

theorem contrib_if (b w : Prop) [Decidable b] [Decidable w] (U : Int) :
    (match (if b then some U else none) with
      | none => (0 : Int)
      | some v => if w then Int.tdiv v 5 else 0) =
      if b ∧ w then Int.tdiv U 5 else 0 := by
  by_cases hb : b
  · by_cases hw : w <;> simp [hb, hw]
  · simp [hb]

/-- Single-cohort positional increments: position `j` receives the
truncated fifth of `U` exactly when it lies within five positions after
the column `Y0 + 2`. -/
theorem pos_sum_single (a Y0 U : Int) (n : Nat)
    (hY : a ≤ Y0) (hend : Y0 + 7 < a + n) (j : Nat) (hj : j < n) :
    pos_sum (range_years a n)
      ((range_years a n).map (fun x => if x = Y0 then some U else none)) j =
      if (Y0 + 2 - a).toNat ≤ j ∧ j ≤ (Y0 + 2 - a).toNat + 5
        then Int.tdiv U 5 else 0 := by
  unfold pos_sum
  rw [py_enumerate_range_years, List.map_map]
  have hcongr : ∀ k ∈ List.range n,
      ((fun p =>
          match two_years_before_demand (range_years a n)
              ((range_years a n).map (fun x => if x = Y0 then some U else none)) p.2 with
          | none => (0 : Int)
          | some v =>
              if j ∈ next_five_years p.1 (range_years a n).length
                then Int.tdiv v 5 else 0) ∘
        (fun k : Nat => (0 + k, a + (k : Int)))) k =
      (fun k : Nat =>
        if a + (k : Int) - 2 = Y0 ∧ (k ≤ j ∧ j ≤ k + 5) then Int.tdiv U 5 else 0) k := by
    intro k hk
    rw [List.mem_range] at hk
    simp only [Function.comp_apply, Nat.zero_add]
    rw [twobd_single a Y0 U n ⟨hY, by omega⟩, contrib_if]
    have hwin : j ∈ next_five_years k (range_years a n).length ↔ (k ≤ j ∧ j ≤ k + 5) := by
      rw [mem_next_five_years, range_years_length]
      omega
    simp only [hwin]
  rw [List.map_congr_left hcongr]
  have hks : ((Y0 + 2 - a).toNat) < n := by omega
  rw [sum_map_range_single _ n (Y0 + 2 - a).toNat hks]
  · by_cases hc : (Y0 + 2 - a).toNat ≤ j ∧ j ≤ (Y0 + 2 - a).toNat + 5
    · rw [if_pos ⟨by omega, hc⟩, if_pos hc]
    · rw [if_neg (fun hcc => hc hcc.2), if_neg hc]
  · intro i hi hne
    rw [if_neg (fun hc => hne (by omega))]

theorem added_at_single (a Y0 U : Int) (n : Nat) (r1 : List Int) (h1 : r1.length = n)
    (hY : a ≤ Y0) (hend : Y0 + 7 < a + n) (k : Nat) (hk : k < 6) :
    added_at (range_years a n)
      ((range_years a n).map (fun x => if x = Y0 then some U else none))
      (r1.map some) (Y0 + 2 + (k : Int)) = Int.tdiv U 5 := by
  unfold added_at
  rw [idx_of_range_years,
    if_pos (by omega : a ≤ Y0 + 2 + (k : Int) ∧ Y0 + 2 + (k : Int) < a + n),
    Option.map_some', Option.getD_some]
  have hjn : (Y0 + 2 + (k : Int) - a).toNat < n := by omega
  have hex : ∃ w : Int, r1[(Y0 + 2 + (k : Int) - a).toNat]? = some w := by
    rw [List.getElem?_eq_getElem (by omega)]
    exact ⟨_, rfl⟩
  obtain ⟨w, hw⟩ := hex
  have hr1 : (r1.map some)[(Y0 + 2 + (k : Int) - a).toNat]? = some (some w) := by
    rw [List.getElem?_map, hw]
    rfl
  rw [total_demand_list_getElem?, hr1,
    pos_sum_single a Y0 U n hY hend _ hjn,
    if_pos (⟨by omega, by omega⟩ :
      (Y0 + 2 - a).toNat ≤ (Y0 + 2 + (k : Int) - a).toNat ∧
        (Y0 + 2 + (k : Int) - a).toNat ≤ (Y0 + 2 - a).toNat + 5)]
  simp only [Option.map_some', bump, diff_cell]
  omega

/-! ### The claims about the demand reconciler -/

/-- Claim C1, counterexample.  On the merged table built from the
gapped forecast years `c1_left` and the BTO pivot `c1_right` (all
current-demand cells numeric, so the Python run returns), the loop of
lines 93-111 does not produce the calendar totals the claim describes: the
single trigger at year 2000 (increment `int(50/5) = 10`) reaches the
columns 2006 and 2007 at positions 5 and 6, although neither lies in the
calendar window [2000, 2005]. -/
theorem claim_c1_counterexample :
    total_demand_list c1_cols c1_row0 c1_row1 ≠ spec_total_demand c1_cols c1_row0 c1_row1
    ∧ (total_demand_list c1_cols c1_row0 c1_row1)[5]? = some (some 10)
    ∧ (spec_total_demand c1_cols c1_row0 c1_row1)[5]? = some (some 0) := by
  decide

/-- Claim C1 (amended): when the merged columns are consecutive ascending
years, for every year `Y` of the column set whose upcoming-demand value at
`Y - 2` is defined, that value divided by 5 with truncating integer
division is added to the total-demand value of every year of
`[Y, Y + 5]` that exists in the column set, and no new columns are
created. -/
theorem claim_c1_amended (a : Int) (n : Nat) (row0 row1 : List (Option Int))
    (h0 : row0.length = n) (h1 : row1.length = n)
    (hs : ∀ v ∈ row1, v ≠ none) :
    total_demand_list (range_years a n) row0 row1 =
      spec_total_demand (range_years a n) row0 row1
    ∧ (total_demand_list (range_years a n) row0 row1).length =
        (range_years a n).length :=
  ⟨total_demand_list_eq_spec_of_consecutive a n row0 row1 h1,
    by rw [total_demand_list_length, h1, range_years_length]⟩

/-- Witness for the amended claim C1 at a concrete consecutive table. -/
theorem claim_c1_witness :
    total_demand_list (range_years 2000 8)
        [some 40, none, none, none, none, none, none, none]
        (List.replicate 8 (some 3)) =
      spec_total_demand (range_years 2000 8)
        [some 40, none, none, none, none, none, none, none]
        (List.replicate 8 (some 3))
    ∧ (total_demand_list (range_years 2000 8)
        [some 40, none, none, none, none, none, none, none]
        (List.replicate 8 (some 3))).length = (range_years 2000 8).length :=
  claim_c1_amended 2000 8 _ _ (by decide) (by decide) (by decide)

/-- Claim C2, counterexample.  The `reindex([1, 0, 2])` of line 119 puts
the row labelled "Current Demand" first, so the final row order is not
"Upcoming Demand, Current Demand, Total Demand". -/
theorem claim_c2_counterexample :
    (get_overview_rows [2025] [some 500] [some 100]).map Prod.fst ≠
      ["Upcoming Demand", "Current Demand", "Total Demand"] := by
  decide

/-- Claim C2 (amended): when the future-supply series is non-empty the
overview has exactly three labelled rows, in the order Current Demand,
Upcoming Demand, Total Demand, with one column per year. -/
theorem claim_c2_amended (cols : List Int) (row0 row1 : List (Option Int))
    (h0 : row0.length = cols.length) (h1 : row1.length = cols.length)
    (hs : ∀ v ∈ row1, v ≠ none) :
    (get_overview_rows cols row0 row1).map Prod.fst =
      ["Current Demand", "Upcoming Demand", "Total Demand"]
    ∧ (get_overview_rows cols row0 row1).length = 3
    ∧ ∀ r ∈ get_overview_rows cols row0 row1, r.2.length = cols.length := by
  refine ⟨rfl, rfl, ?_⟩
  intro r hr
  have hrows : get_overview_rows cols row0 row1 =
      [("Current Demand", row1), ("Upcoming Demand", row0),
        ("Total Demand", total_demand_list cols row0 row1)] := rfl
  rw [hrows] at hr
  simp only [List.mem_cons, List.not_mem_nil, or_false] at hr
  rcases hr with rfl | rfl | rfl
  · exact h1
  · exact h0
  · rw [show (("Total Demand", total_demand_list cols row0 row1) :
        String × List (Option Int)).2 = total_demand_list cols row0 row1 from rfl,
      total_demand_list_length, h1]

/-- Witness for the amended claim C2 at a concrete table. -/
theorem claim_c2_witness :
    (get_overview_rows [2025] [some 500] [some 100]).map Prod.fst =
      ["Current Demand", "Upcoming Demand", "Total Demand"] :=
  (claim_c2_amended [2025] [some 500] [some 100] (by decide) (by decide) (by decide)).1

/-- Claim C3: the total-demand row starts as a copy of row index 1 of the
merged table (the current-demand row, line 92) - so with no triggered
column it equals that row - and the increments accumulate additively: the
final value at each position is the row-1 value plus the sum of the
per-cohort increments whose spread window covers the position. -/
theorem claim_c3 (cols : List Int) (row0 row1 : List (Option Int))
    (hs : ∀ v ∈ row1, v ≠ none) :
    ((∀ c ∈ cols, two_years_before_demand cols row0 c = none) →
      total_demand_list cols row0 row1 = row1)
    ∧ ∀ j : Nat, (total_demand_list cols row0 row1)[j]? =
        (row1[j]?).map (bump (pos_sum cols row0 j)) := by
  constructor
  · intro hnone
    apply List.ext_getElem?
    intro j
    rw [total_demand_list_getElem?]
    have hz : pos_sum cols row0 j = 0 := by
      unfold pos_sum
      apply List.sum_eq_zero
      intro x hx
      rw [List.mem_map] at hx
      obtain ⟨p, hp, rfl⟩ := hx
      rw [hnone p.2 (snd_mem_of_mem_py_enumerate 0 cols p hp)]
    rw [hz]
    cases h : row1[j]? with
    | none => rfl
    | some v => rw [Option.map_some', bump_zero]
  · exact fun j => total_demand_list_getElem? cols row0 row1 j

/-- Witness for claim C3 at a concrete table (no column triggers, so the
total row is the copy; the closed form holds at position 1). -/
theorem claim_c3_witness :
    total_demand_list [2025, 2026] [some 9, some 9] [some 1, some 2] = [some 1, some 2]
    ∧ (total_demand_list [2025, 2026] [some 9, some 9] [some 1, some 2])[1]? =
        (([some 1, some 2] : List (Option Int))[1]?).map
          (bump (pos_sum [2025, 2026] [some 9, some 9] 1)) :=
  have h := claim_c3 [2025, 2026] [some 9, some 9] [some 1, some 2] (by decide)
  ⟨h.1 (by decide), h.2 1⟩

/-- Claim C4, counterexample.  Single cohort of 500 units completing in
2025 over the columns 2018-2032: the loop adds `int(500/5) = 100` to each
of the six years 2027-2032, so the total added over [Y+2, Y+7] is 600, not
5 * floor(500/5) = 500. -/
theorem claim_c4_counterexample :
    ((List.range 6).map
      (fun k : Nat => added_at c4_cols c4_row0 c4_row1 (2027 + (k : Int)))).sum = 600
    ∧ ((List.range 6).map
      (fun k : Nat => added_at c4_cols c4_row0 c4_row1 (2027 + (k : Int)))).sum ≠
        5 * Int.tdiv 500 5 := by
  decide

/-- Claim C4 (amended): for a single cohort of `U` units completing in
year `Y0`, with consecutive columns covering the whole window, the sum of
the increments added to the total-demand row across the six years
[Y0+2, Y0+7] equals `6 * (U / 5)` (truncating division): the window spans
six years, each receiving the truncated fifth. -/
theorem claim_c4_amended (a Y0 U : Int) (n : Nat) (r1 : List Int)
    (h1 : r1.length = n) (hY : a ≤ Y0) (hend : Y0 + 7 < a + n) :
    ((List.range 6).map (fun k : Nat =>
      added_at (range_years a n)
        ((range_years a n).map (fun c => if c = Y0 then some U else none))
        (r1.map some) (Y0 + 2 + (k : Int)))).sum = 6 * Int.tdiv U 5 := by
  have hpt : ∀ k ∈ List.range 6,
      added_at (range_years a n)
        ((range_years a n).map (fun c => if c = Y0 then some U else none))
        (r1.map some) (Y0 + 2 + (k : Int)) = Int.tdiv U 5 := by
    intro k hk
    exact added_at_single a Y0 U n r1 h1 hY hend k (List.mem_range.mp hk)
  rw [List.map_congr_left hpt]
  rw [show (List.range 6) = [0, 1, 2, 3, 4, 5] from rfl]
  simp only [List.map_cons, List.map_nil, List.sum_cons, List.sum_nil]
  ring

/-- Witness for the amended claim C4 on the concrete 2018-2032 table. -/
theorem claim_c4_witness :
    ((List.range 6).map (fun k : Nat =>
      added_at (range_years 2018 15)
        ((range_years 2018 15).map (fun c => if c = 2025 then some 500 else none))
        ((List.replicate 15 (0 : Int)).map some) (2027 + (k : Int)))).sum =
      6 * Int.tdiv 500 5 :=
  claim_c4_amended 2018 2025 500 15 (List.replicate 15 0) (by decide) (by decide)
    (by decide)

/-- Claim C10: the spread window of line 104 is positional - the total at
position `j` is the row-1 value plus the sum of the increments of the
triggered positions `idx` with `j` in `range(idx, idx+6)` (truncated at
the table end) - and when the merged columns are consecutive ascending
years this coincides with the calendar window [Y, Y+5] of the spec. -/
theorem claim_c10 (cols : List Int) (row0 row1 : List (Option Int))
    (hs : ∀ v ∈ row1, v ≠ none) :
    (∀ j : Nat, (total_demand_list cols row0 row1)[j]? =
      (row1[j]?).map (bump (pos_sum cols row0 j)))
    ∧ (∀ a : Int, ∀ n : Nat, cols = range_years a n → row1.length = n →
        total_demand_list cols row0 row1 = spec_total_demand cols row0 row1) := by
  constructor
  · exact fun j => total_demand_list_getElem? cols row0 row1 j
  · rintro a n rfl h1
    exact total_demand_list_eq_spec_of_consecutive a n row0 row1 h1

/-- Witness for claim C10 at a concrete consecutive table. -/
theorem claim_c10_witness :
    total_demand_list (range_years 2024 6)
        [none, some 500, none, none, none, none]
        [some 7, some 7, some 7, some 7, some 7, some 7] =
      spec_total_demand (range_years 2024 6)
        [none, some 500, none, none, none, none]
        [some 7, some 7, some 7, some 7, some 7, some 7] :=
  (claim_c10 (range_years 2024 6) _ _ (by decide)).2 2024 6 rfl (by decide)

/-! ### Lemmas and claims for the forecaster -/

theorem lookup_year_exists_of_isSome (y : Int) (l : List (Int × α))
    (h : (lookup_year y l).isSome = true) : ∃ q ∈ l, q.1 = y := by
  induction l with
  | nil => simp [lookup_year] at h
  | cons p t ih =>
      unfold lookup_year at h
      by_cases hp : p.1 = y
      · exact ⟨p, List.mem_cons_self p t, hp⟩
      · rw [if_neg hp] at h
        obtain ⟨q, hq, hqy⟩ := ih h
        exact ⟨q, List.mem_cons_of_mem p hq, hqy⟩

theorem lookup_year_eq_none (y : Int) (l : List (Int × α))
    (h : ∀ q ∈ l, q.1 ≠ y) : lookup_year y l = none := by
  induction l with
  | nil => rfl
  | cons p t ih =>
      unfold lookup_year
      rw [if_neg (h p (List.mem_cons_self p t))]
      exact ih (fun q hq => h q (List.mem_cons_of_mem p hq))

theorem mem_exog_rows_fields (ys : List Int) (hist : List (Int × Int))
    (fert : List (Int × Rat)) (r : ExogRow) (hr : r ∈ exog_rows_of ys hist fert) :
    r.count = count_at hist r.year ∧ r.rate = rate_at fert r.year := by
  unfold exog_rows_of at hr
  rw [List.mem_map] at hr
  obtain ⟨p, hp, rfl⟩ := hr
  exact ⟨rfl, rfl⟩

theorem range_years_chain_lt (a : Int) (n : Nat) :
    List.Chain' (· < ·) (range_years a n) := by
  induction n generalizing a with
  | zero => simp [range_years]
  | succ n ih =>
      rw [range_years_succ]
      apply List.chain'_cons'.mpr
      refine ⟨?_, ih (a + 1)⟩
      intro b hb
      cases n with
      | zero => simp [range_years] at hb
      | succ m =>
          rw [range_years_succ] at hb
          simp only [List.head?_cons, Option.mem_def, Option.some.injEq] at hb
          omega

theorem range_years_chain_consec (a : Int) (n : Nat) :
    List.Chain' (fun x y => y = x + 1) (range_years a n) := by
  induction n generalizing a with
  | zero => simp [range_years]
  | succ n ih =>
      rw [range_years_succ]
      apply List.chain'_cons'.mpr
      refine ⟨?_, ih (a + 1)⟩
      intro b hb
      cases n with
      | zero => simp [range_years] at hb
      | succ m =>
          rw [range_years_succ] at hb
          simp only [List.head?_cons, Option.mem_def, Option.some.injEq] at hb
          omega

/-- Claim C5: for every historical series with at least 21 years and the
nine per-step forecast values of `model_fit.forecast(steps=9, ...)`, the
forecast result has exactly 9 entries, whose years are strictly increasing
and are the 9 consecutive years immediately following the last historical
year. -/
theorem claim_c5 (hist : List (Int × Int)) (vals : List Rat)
    (h21 : 21 ≤ hist.length) (hv : vals.length = forecast_periods) :
    (forecast_result vals hist).length = 9
    ∧ (forecast_result vals hist).map Prod.fst =
        future_years (data_long_year_max hist)
    ∧ List.Chain' (· < ·) ((forecast_result vals hist).map Prod.fst)
    ∧ ∀ k : Nat, k < 9 → (future_years (data_long_year_max hist))[k]? =
        some (data_long_year_max hist + 1 + (k : Int)) := by
  have hy : (future_years (data_long_year_max hist)).length = 9 := by
    simp [future_years, range_years_length, forecast_periods]
  have hvl : vals.length = 9 := hv
  have hmap : (forecast_result vals hist).map Prod.fst =
      future_years (data_long_year_max hist) := by
    unfold forecast_result
    apply List.map_fst_zip
    rw [hy, hvl]
  refine ⟨?_, hmap, ?_, ?_⟩
  · unfold forecast_result
    rw [List.length_zip, hy, hvl]
    omega
  · rw [hmap]
    exact range_years_chain_lt _ _
  · intro k hk
    simp only [future_years, forecast_periods]
    rw [getElem?_range_years, if_pos hk]

/-- Witness for claim C5 on a 21-year series. -/
theorem claim_c5_witness :
    (forecast_result c5_vals c5_hist).length = 9
    ∧ (forecast_result c5_vals c5_hist).map Prod.fst =
        future_years (data_long_year_max c5_hist) :=
  have h := claim_c5 c5_hist c5_vals (by decide) (by decide)
  ⟨h.1, h.2.1⟩

/-- Claim C6, counterexample.  On the gapped joined index
[2000, 2001, 2003, 2005], `shift(2)` is positional, so the row of year
2005 keeps `Rate_lagged = Rate(2001)`, although `Rate(2003)` is defined:
the lag property `Rate_lagged(year) = Rate(year - 2)` fails. -/
theorem claim_c6_counterexample :
    ∃ r ∈ exog_frame c6_hist c6_fert,
      (rate_at c6_fert (r.year - 2)).isSome = true
      ∧ r.rate_lagged ≠ rate_at c6_fert (r.year - 2) := by
  decide

/-- Claim C6 (amended): `Rate_lagged` is the `Rate` of the row two
positions earlier in the year-sorted joined index; when the joined index
is a consecutive year range this equals `Rate(year - 2)` for every row of
the ExogenousFrame, and every joined row whose lag value is undefined (in
particular the first two rows) is absent from the frame. -/
theorem claim_c6_amended (hist : List (Int × Int)) (fert : List (Int × Rat))
    (a : Int) (n : Nat)
    (hc : joined_years (hist.map (·.1)) ((filtered_fertility fert).map (·.1)) =
      range_years a n) :
    (∀ r ∈ exog_frame hist fert, r.rate_lagged = rate_at fert (r.year - 2))
    ∧ ∀ r ∈ data_long_with_rates hist fert,
        r.rate_lagged = none → r ∉ exog_frame hist fert := by
  constructor
  · intro r hr
    obtain ⟨hrd, hpred⟩ := List.mem_filter.mp hr
    rw [Bool.and_eq_true] at hpred
    unfold data_long_with_rates at hrd
    rw [hc] at hrd
    unfold exog_rows_of at hrd
    rw [List.mem_map] at hrd
    obtain ⟨⟨pi, py⟩, hp, rfl⟩ := hrd
    rw [mem_py_enumerate] at hp
    obtain ⟨k, hk, hp1, hp2⟩ := hp
    rw [range_years_length] at hk
    obtain rfl : pi = k := by omega
    rw [getElem?_range_years, if_pos hk] at hp2
    have hpy : py = a + (pi : Int) := by
      have := hp2.symm
      simp only [Option.some.injEq] at this
      exact this
    by_cases h2 : 2 ≤ pi
    · show (if 2 ≤ pi then ((range_years a n)[pi - 2]?).bind (rate_at fert) else none) =
        rate_at fert (py - 2)
      rw [if_pos h2, getElem?_range_years, if_pos (by omega : pi - 2 < n)]
      show rate_at fert (a + ((pi - 2 : Nat) : Int)) = rate_at fert (py - 2)
      have harg : a + ((pi - 2 : Nat) : Int) = py - 2 := by omega
      rw [harg]
    · exfalso
      have hps : (if 2 ≤ pi then ((range_years a n)[pi - 2]?).bind (rate_at fert)
          else none).isSome = true := hpred.2
      rw [if_neg h2] at hps
      simp at hps
  · intro r hrd hlag hmem
    have hpred := (List.mem_filter.mp hmem).2
    rw [Bool.and_eq_true] at hpred
    rw [hlag] at hpred
    simp at hpred

/-- Witness for the amended claim C6: on the contiguous 2000-2003 data the
kept row of year 2002 satisfies the calendar lag property. -/
theorem claim_c6_witness :
    ExogRow.rate_lagged
        { year := 2002, count := some 7, rate := some 3, rate_lagged := some 1 } =
      rate_at c6w_fert ((2002 : Int) - 2) :=
  (claim_c6_amended c6w_hist c6w_fert 2000 4 (by decide)).1 _ (by decide)

/-- Claim C7, counterexample.  With historical years 2000-2001 and
fertility years 2010-2012 (zero overlap), the ExogenousFrame is not empty
(the 2012 row survives with an undefined count), and the pipeline fails
with a `ValueError` - no `DataInsufficientError` exists in the code. -/
theorem claim_c7_counterexample :
    (∀ p ∈ c7_hist, ∀ q ∈ c7_fert, p.1 ≠ q.1)
    ∧ exog_frame c7_hist c7_fert ≠ []
    ∧ fit_pipeline c7_hist c7_fert = Except.error CoreError.valueError
    ∧ fit_pipeline c7_hist c7_fert ≠ Except.error CoreError.dataInsufficient := by
  refine ⟨by decide, by decide, rfl, ?_⟩
  intro h
  rw [show fit_pipeline c7_hist c7_fert = Except.error CoreError.valueError from rfl] at h
  exact CoreError.noConfusion (Except.error.inj h)

/-- Claim C7 (amended): when the fertility series has zero years
overlapping the historical series, every surviving ExogenousFrame row has
an undefined count, and the pipeline fails with a `ValueError` (empty
regression fit, or `astype(int)` on an undefined count) rather than
silently producing a degenerate model. -/
theorem claim_c7_amended (hist : List (Int × Int)) (fert : List (Int × Rat))
    (hov : ∀ p ∈ hist, ∀ q ∈ fert, p.1 ≠ q.1) :
    fit_pipeline hist fert = Except.error CoreError.valueError := by
  have hall : ∀ r ∈ exog_frame hist fert, r.count = none := by
    intro r hr
    obtain ⟨hrd, hpred⟩ := List.mem_filter.mp hr
    rw [Bool.and_eq_true] at hpred
    obtain ⟨hcnt, hrate⟩ := mem_exog_rows_fields _ hist fert r hrd
    rw [hrate] at hpred
    obtain ⟨q, hq, hqy⟩ := lookup_year_exists_of_isSome r.year _ hpred.1
    have hqf : q ∈ fert := (List.mem_filter.mp hq).1
    rw [hcnt]
    apply lookup_year_eq_none
    intro p hp hpy
    exact hov p hp q hqf (by rw [hpy, hqy])
  unfold fit_pipeline
  cases hfr : exog_frame hist fert with
  | nil => rfl
  | cons r t =>
      have hrc : r.count = none := by
        apply hall
        rw [hfr]
        exact List.mem_cons_self r t
      simp [hrc]

/-- Witness for the amended claim C7 on the zero-overlap data. -/
theorem claim_c7_witness :
    fit_pipeline c7_hist c7_fert = Except.error CoreError.valueError :=
  claim_c7_amended c7_hist c7_fert (by decide)

/-- Claim C8: the extrapolator's output rows are indexed by exactly the 6
consecutive calendar years following the last year of the ExogenousFrame,
one row per year, no gaps.  (The predicted values inside those rows are
the linear model evaluated at the hard-coded years 2024-2029.) -/
theorem claim_c8 (hist : List (Int × Int)) (fert : List (Int × Rat)) (f : LinFit) :
    (exog_last_6_df f (exog_frame_year_max hist fert)).map Prod.fst =
      years_last_6 (exog_frame_year_max hist fert)
    ∧ (exog_last_6_df f (exog_frame_year_max hist fert)).length = 6
    ∧ (∀ y : Int,
        y ∈ (exog_last_6_df f (exog_frame_year_max hist fert)).map Prod.fst ↔
          (exog_frame_year_max hist fert + 1 ≤ y ∧
            y ≤ exog_frame_year_max hist fert + 6))
    ∧ List.Chain' (fun x y => y = x + 1)
        ((exog_last_6_df f (exog_frame_year_max hist fert)).map Prod.fst) := by
  have hlen : (years_last_6 (exog_frame_year_max hist fert)).length = 6 := by
    simp [years_last_6, range_years_length]
  have hplen : (years_forecast.map (reg_predict f)).length = 6 := rfl
  have hmap : (exog_last_6_df f (exog_frame_year_max hist fert)).map Prod.fst =
      years_last_6 (exog_frame_year_max hist fert) := by
    unfold exog_last_6_df
    apply List.map_fst_zip
    rw [hlen, hplen]
  refine ⟨hmap, ?_, ?_, ?_⟩
  · unfold exog_last_6_df
    rw [List.length_zip, hlen, hplen]
    omega
  · intro y
    rw [hmap]
    unfold years_last_6
    rw [mem_range_years]
    omega
  · rw [hmap]
    exact range_years_chain_consec _ _

/-- Claim C9: the two functions are not side-effect-free.  On a frame
whose `Year` column holds floats and which has no `Type` column,
`get_forecast_demand` rewrites `Year` in place with integer cells
(line 149), and `get_forecast_plot` appends a `Type` column (line 209):
the input frame differs after each call. -/
theorem claim_c9_bug :
    get_forecast_demand_effect c9_df ≠ c9_df
    ∧ get_forecast_plot_effect c9_df ≠ c9_df := by
  decide
